/-
Verification of the core operations of the flickr-photoset-creator
repository (src/flickr_interestingness.py and src/web_app.py).

Shallow embedding conventions:
  * Remote API operations are parameters.  A wrapped operation is modelled as
    a function `Nat → Except String α` from the attempt index to the outcome
    of that attempt (`.error e` models a raised exception with message `e`).
  * `api_call_with_retry` mirrors the Python wrapper of the same name,
    including its `print` side effects (as a list of emitted lines) and its
    `time.sleep` side effects (as a list of wait durations in seconds).
  * Loops that Python bounds by a server-reported page count (`while True`
    pagination) take an explicit fuel argument; running out of fuel yields a
    distinguished `none` result modelling non-termination.  Honest paginated
    servers are modelled by `getList_server` / `search_server`, for which a
    computable fuel bound suffices.
  * Stateful web-app machinery (the SSE replay buffer and the asyncio log
    queue) is modelled by explicit state passing over `StreamState`.
-/
import Mathlib

set_option maxRecDepth 4096

/-! ## Retrying remote call (src/flickr_interestingness.py, api_call_with_retry) -/

/-- Observable trace of one `api_call_with_retry` invocation.
`result` is `.error e` when the final attempt's exception propagates,
`.ok none` when the loop body never runs (fall-through returns `None`),
and `.ok (some a)` when some attempt returns `a`.
`invoked` lists the attempt indices at which the wrapped operation was called,
`waits` the backoff sleeps performed (seconds, in order), and `logs` the
transient-error lines printed before each retry. -/
structure RetryTrace (α : Type) where
  result : Except String (Option α)
  invoked : List Nat
  waits : List Nat
  logs : List String
deriving Repr

/-- The line printed before a retry:
`print(f"  Transient error: {e}. Retrying in {wait}s...")`. -/
def retry_line (e : String) (wait : Nat) : String :=
  s!"  Transient error: {e}. Retrying in {wait}s..."

/-- Body of `for attempt in range(max_retries)` in `api_call_with_retry`.
`fuel` counts the remaining loop iterations; the caller passes
`max_retries.toNat`, so the `0` base case is reached exactly when Python's
`range` is exhausted (which, as in the source, can only happen before the
first iteration, since the last iteration always returns or raises). -/
def retry_go (func : Nat → Except String α) (max_retries : Int) : Nat → Nat → RetryTrace α
  | _, 0 => ⟨.ok none, [], [], []⟩
  | attempt, fuel + 1 =>
    match func attempt with
    | .ok a => ⟨.ok (some a), [attempt], [], []⟩
    | .error e =>
      if (attempt : Int) = max_retries - 1 then ⟨.error e, [attempt], [], []⟩
      else
        let wait := 2 ^ attempt
        let rest := retry_go func max_retries (attempt + 1) fuel
        ⟨rest.result, attempt :: rest.invoked, wait :: rest.waits,
          retry_line e wait :: rest.logs⟩

/-- `api_call_with_retry(func, max_retries=3, **kwargs)`: call `func`; on an
exception that is not the final allowed attempt, print a transient-error line,
sleep `2 ** attempt` seconds and retry; on the final attempt's exception,
re-raise.  `max_retries` is an `Int` because Python allows a non-positive
override (the loop then runs zero times and the function returns `None`).
The Python default is `max_retries=3`; call sites below pass `3` explicitly. -/
def api_call_with_retry (func : Nat → Except String α) (max_retries : Int) : RetryTrace α :=
  retry_go func max_retries 0 max_retries.toNat

/-- A scripted remote operation for exercising the retry wrapper: attempt `n`
raises `errs[n]` while `n < errs.length`, and every later attempt yields
`after`. -/
def scripted_op (errs : List String) (after : Except String α) : Nat → Except String α :=
  fun n =>
    match errs[n]? with
    | some e => .error e
    | none => after

/-! ## Paginated photo collector (src/flickr_interestingness.py, fetch_interesting_photos) -/

/-- One response of `flickr.photos.search`: the page's photo ids (in the
server's interestingness-descending order) and the server-reported total
page count. -/
structure SearchPage where
  photo : List String
  pages : Nat
deriving Repr, DecidableEq

/-- Body of `for page in range(1, total_pages + 1)` in
`fetch_interesting_photos`.  `searchA page attempt` is the outcome of the
`attempt`-th try of `flickr.photos.search` for `page` (each page fetch goes
through `api_call_with_retry` with the default budget of 3; an exhausted-retry
error propagates).  The third argument is the number of remaining loop
iterations, initially `total_pages`.  `.ok none` from the wrapper cannot occur
with a positive budget; it is mapped to the `TypeError` Python would raise on
subscripting `None`. -/
def fetch_go (searchA : Nat → Nat → Except String SearchPage) :
    Nat → List String → Nat → Except String (List String)
  | _, acc, 0 => .ok acc
  | page, acc, rem + 1 =>
    match (api_call_with_retry (searchA page) 3).result with
    | .error e => .error e
    | .ok none => .error "TypeError"
    | .ok (some resp) =>
      if resp.photo = [] then .ok acc
      else if resp.pages ≤ page then .ok (acc ++ resp.photo)
      else fetch_go searchA (page + 1) (acc ++ resp.photo) rem

/-- `fetch_interesting_photos(flickr, nsid, count)`: paginated search with
`per_page = 500`, accumulating photo ids page by page (stopping on an empty
page or when the server-reported page count is reached), then truncating the
accumulated list to `count`.  The per-page progress `print` goes to stdout and
is not part of any claim, so it is not recorded here. -/
def fetch_interesting_photos (searchA : Nat → Nat → Except String SearchPage)
    (count : Nat) : Except String (List String) :=
  (fetch_go searchA 1 [] ((count + 500 - 1) / 500)).map fun l => l.take count

/-- Concatenation of the photo lists of pages `page, page+1, ..., page+k-1`
as returned by `search`. -/
def pages_concat (search : Nat → SearchPage) (page : Nat) : Nat → List String
  | 0 => []
  | k + 1 => (search page).photo ++ pages_concat search (page + 1) k

/-- An always-succeeding remote endpoint: every attempt of every call returns
`f page`. -/
def reliable (f : Nat → α) : Nat → Nat → Except String α :=
  fun page _attempt => .ok (f page)

/-- An honest paginated server over the account's full photo list `all`
(500 photos per page, pages numbered from 1, reported page count
`⌈all.length / 500⌉`). -/
def search_server (all : List String) (page : Nat) : SearchPage :=
  ⟨(all.drop ((page - 1) * 500)).take 500, (all.length + 499) / 500⟩

/-! ## Album name resolver (src/flickr_interestingness.py resolve_photoset_name,
src/web_app.py resolve_photoset_name) -/

/-- One album entry as consumed by the resolver
(`ps["title"]["_content"]` and `ps["id"]`). -/
structure PhotosetEntry where
  title : String
  id : String
deriving Repr, DecidableEq

/-- One response of `flickr.photosets.getList`: the page's albums in listing
order and the server-reported total page count. -/
structure PhotosetPage where
  photoset : List PhotosetEntry
  pages : Nat
deriving Repr, DecidableEq

/-- The inner `for ps in photosets: if ps["title"]["_content"] == name: return
ps["id"]` loop: first exact (case-sensitive) title match in order. -/
def find_in_page (photosets : List PhotosetEntry) (name : String) : Option String :=
  match photosets with
  | [] => none
  | ps :: rest => if ps.title = name then some ps.id else find_in_page rest name

/-- The `while True` pagination of `resolve_photoset_name`, shared by the CLI
and the web app: fetch a listing page through `api_call_with_retry` (budget 3),
scan it for the first exact title match, stop when `page >= resp.pages`.
The last argument is fuel bounding the number of pages visited; `none` models
non-termination (never reached for an honest server given enough fuel).
`some (.ok (some id))` is a hit, `some (.ok none)` the not-found outcome
(CLI: error print + `sys.exit(1)`; web app: `return None`), and
`some (.error e)` a propagated exhausted-retry exception. -/
def resolve_loop (getListA : Nat → Nat → Except String PhotosetPage) (name : String) :
    Nat → Nat → Option (Except String (Option String))
  | _, 0 => none
  | page, fuel + 1 =>
    match (api_call_with_retry (getListA page) 3).result with
    | .error e => some (.error e)
    | .ok none => some (.error "TypeError")
    | .ok (some resp) =>
      match find_in_page resp.photoset name with
      | some id => some (.ok (some id))
      | none =>
        if resp.pages ≤ page then some (.ok none)
        else resolve_loop getListA name (page + 1) fuel

/-- `resolve_photoset_name(flickr, nsid, name)`: pagination starts at page 1. -/
def resolve_photoset_name (getListA : Nat → Nat → Except String PhotosetPage)
    (name : String) (fuel : Nat) : Option (Except String (Option String)) :=
  resolve_loop getListA name 1 fuel

/-- An honest paginated album listing over the account's full album list
(500 per page, listing order preserved across pages). -/
def getList_server (albums : List PhotosetEntry) (page : Nat) : PhotosetPage :=
  ⟨(albums.drop ((page - 1) * 500)).take 500, (albums.length + 499) / 500⟩

/-- Fuel sufficient for `resolve_loop` to exhaust the pages of
`getList_server albums`. -/
def fuel_for (albums : List PhotosetEntry) : Nat :=
  (albums.length + 499) / 500 + 1

/-! ## Album writer (src/flickr_interestingness.py create_photoset,
update_photoset, add_photos_individually) -/

/-- A write call issued to the remote API (arguments as passed by the
source; `editPhotos` gets the comma-joined id list). -/
inductive WriteCall where
  | create (title description primary_photo_id : String)
  | editMeta (photoset_id title description : String)
  | editPhotos (photoset_id primary_photo_id photo_ids : String)
  | addPhoto (photoset_id photo_id : String)
deriving Repr, DecidableEq

/-- Outcome of the CLI `add_photos_individually` fallback: the final
`added`/`failed` counters, the `failures` list of `(photo_id, error)` pairs in
input order, the photo ids submitted to `addPhoto` (one wrapped call each, in
order), and the lines printed by the loop and its final report. -/
structure AddOutcome where
  added : Nat
  failed : Nat
  failures : List (String × String)
  calls : List String
  logs : List String
deriving Repr, DecidableEq

/-- `f"  Photo {photo_id}: {err}"`, one line of the itemized failure report. -/
def fail_line : String × String → String
  | (photo_id, err) => s!"  Photo {photo_id}: {err}"

/-- The report printed after the CLI fallback loop: a success line when there
were no failures, otherwise a header plus one line per failure. -/
def add_report (failed : Nat) (failures : List (String × String)) : List String :=
  if failures.isEmpty then ["All photos added successfully via addPhoto loop."]
  else s!"\nFailed to add {failed} photo(s):" :: failures.map fail_line

/-- Body of `for i, photo_id in enumerate(remaining, start=1)` in the CLI
`add_photos_individually`: each id gets one `api_call_with_retry`-wrapped
`addPhoto` call (budget 3); a success bumps `added`, an exhausted-retry error
bumps `failed` and records `(photo_id, str(e))`, and the loop always continues.
A progress line is printed every 50 items and on the last item (counters
already updated).  `addPhotoA pid attempt` is the outcome of the given attempt
for `pid`. -/
def add_loop (addPhotoA : String → Nat → Except String Unit) (total : Nat) :
    List String → Nat → Nat → Nat → AddOutcome
  | [], _, added, failed => ⟨added, failed, [], [], []⟩
  | pid :: rest, i, added, failed =>
    match (api_call_with_retry (addPhotoA pid) 3).result with
    | .ok _ =>
      let progress :=
        if i % 50 == 0 || i == total then
          [s!"  Progress: {i}/{total} (added: {added + 1}, failed: {failed})"]
        else []
      let out := add_loop addPhotoA total rest (i + 1) (added + 1) failed
      ⟨out.added, out.failed, out.failures, pid :: out.calls, progress ++ out.logs⟩
    | .error e =>
      let progress :=
        if i % 50 == 0 || i == total then
          [s!"  Progress: {i}/{total} (added: {added}, failed: {failed + 1})"]
        else []
      let out := add_loop addPhotoA total rest (i + 1) added (failed + 1)
      ⟨out.added, out.failed, (pid, e) :: out.failures, pid :: out.calls,
        progress ++ out.logs⟩

/-- `add_photos_individually(flickr, photoset_id, photo_ids)`: the first id is
already in the set (it is the primary photo), so the loop runs over
`photo_ids[1:]`; afterwards the success line or the itemized failure report is
printed.  The fixed 100ms `time.sleep` between items has no observable effect
in this model. -/
def add_photos_individually (addPhotoA : String → String → Nat → Except String Unit)
    (photoset_id : String) (photo_ids : List String) : AddOutcome :=
  let remaining := photo_ids.drop 1
  let out := add_loop (addPhotoA photoset_id) remaining.length remaining 1 0 0
  { out with logs := out.logs ++ add_report out.failed out.failures }

/-- Result of a CLI create/update entry point: the returned photoset id (or
the propagated exception), the write calls issued in order, and the fallback
outcome when the incremental path ran. -/
structure WriteTrace where
  result : Except String String
  writes : List WriteCall
  fallback : Option AddOutcome
deriving Repr

/-- `create_photoset(flickr, title, description, photo_ids)`: create the set
with `primary_photo_id = photo_ids[0]` (a retry-exhausted error is fatal and
propagates), then try one bulk `editPhotos` over the *entire* id list; if that
raises, fall back to `add_photos_individually`.  An empty `photo_ids` raises
`IndexError` on `photo_ids[0]` before any call is issued.  `createA attempt`
yields the new set's id. -/
def create_photoset (createA : Nat → Except String String)
    (editPhotosA : Nat → Except String Unit)
    (addPhotoA : String → String → Nat → Except String Unit)
    (title description : String) (photo_ids : List String) : WriteTrace :=
  match photo_ids with
  | [] => ⟨.error "IndexError: list index out of range", [], none⟩
  | p0 :: _ =>
    match (api_call_with_retry createA 3).result with
    | .error e => ⟨.error e, [.create title description p0], none⟩
    | .ok none => ⟨.error "TypeError", [.create title description p0], none⟩
    | .ok (some photoset_id) =>
      let ws := [WriteCall.create title description p0,
        WriteCall.editPhotos photoset_id p0 (String.intercalate "," photo_ids)]
      match (api_call_with_retry editPhotosA 3).result with
      | .ok _ => ⟨.ok photoset_id, ws, none⟩
      | .error _ =>
        let ao := add_photos_individually addPhotoA photoset_id photo_ids
        ⟨.ok photoset_id, ws ++ ao.calls.map (WriteCall.addPhoto photoset_id),
          some ao⟩

/-- `update_photoset(flickr, photoset_id, title, description, photo_ids)`:
append `"\n\nLast updated: <timestamp>"` to the supplied description
(`timestamp` stands for the localized `datetime.now()` rendering), issue
`editMeta` with the caller-supplied title and the augmented description
unconditionally (a retry-exhausted error is fatal), then the same bulk
`editPhotos` / incremental fallback as the create path. -/
def update_photoset (editMetaA : Nat → Except String Unit)
    (editPhotosA : Nat → Except String Unit)
    (addPhotoA : String → String → Nat → Except String Unit)
    (timestamp photoset_id title description : String)
    (photo_ids : List String) : WriteTrace :=
  let description2 := s!"{description}\n\nLast updated: {timestamp}"
  let metaW := WriteCall.editMeta photoset_id title description2
  match (api_call_with_retry editMetaA 3).result with
  | .error e => ⟨.error e, [metaW], none⟩
  | .ok _ =>
    match photo_ids with
    | [] => ⟨.error "IndexError: list index out of range", [metaW], none⟩
    | p0 :: _ =>
      let ws := [metaW,
        WriteCall.editPhotos photoset_id p0 (String.intercalate "," photo_ids)]
      match (api_call_with_retry editPhotosA 3).result with
      | .ok _ => ⟨.ok photoset_id, ws, none⟩
      | .error _ =>
        let ao := add_photos_individually addPhotoA photoset_id photo_ids
        ⟨.ok photoset_id, ws ++ ao.calls.map (WriteCall.addPhoto photoset_id),
          some ao⟩

/-! ## CLI entry point (src/flickr_interestingness.py, main) -/

/-- The CLI arguments relevant after credential resolution
(`--title`, `--description`, `--count`, `--photoset-id`, `--photoset-name`,
`--dry-run`). -/
structure CliConfig where
  title : String
  description : String
  count : Nat
  photoset_id : Option String
  photoset_name : Option String
  dry_run : Bool
deriving Repr, DecidableEq

/-- The remote API as seen by one CLI run.  Every operation is attempt-indexed
(the attempt argument feeds `api_call_with_retry`).  `list_fuel` bounds the
album-listing pagination (a modelling artifact of the source's `while True`
loop; `fuel_for` of the account's album list is always sufficient for an
honest server).  `timestamp` stands for the `datetime.now()` rendering. -/
structure FlickrEnv where
  nsid : String
  search : Nat → Nat → Except String SearchPage
  getList : Nat → Nat → Except String PhotosetPage
  list_fuel : Nat
  create : Nat → Except String String
  editMeta : Nat → Except String Unit
  editPhotos : Nat → Except String Unit
  addPhoto : String → String → Nat → Except String Unit
  timestamp : String

/-- Observable trace of one CLI `main` run (after authentication):
`collected` is the photo id list produced by the collector (`none` if the
collection crashed), `resolution_invoked` records whether
`resolve_photoset_name` was called, `writes` the write calls issued,
`dry_printed` the photo ids printed by the dry-run branch, and `exit_code`
the process exit status (`none` = crashed on an uncaught exception, or the
fuel modelling artifact). -/
structure MainTrace where
  collected : Option (List String)
  resolution_invoked : Bool
  writes : List WriteCall
  dry_printed : List String
  exit_code : Option Nat
deriving Repr, DecidableEq

/-- The tail of `main` once a write target is fixed: update when a photoset id
is at hand, create otherwise; a propagated exception crashes the process. -/
def main_write (env : FlickrEnv) (cfg : CliConfig) (photo_ids : List String)
    (target : Option String) (resolved : Bool) : MainTrace :=
  match target with
  | some tid =>
    let u := update_photoset env.editMeta env.editPhotos env.addPhoto
      env.timestamp tid cfg.title cfg.description photo_ids
    ⟨some photo_ids, resolved, u.writes, [],
      match u.result with | .ok _ => some 0 | .error _ => none⟩
  | none =>
    let c := create_photoset env.create env.editPhotos env.addPhoto
      cfg.title cfg.description photo_ids
    ⟨some photo_ids, resolved, c.writes, [],
      match c.result with | .ok _ => some 0 | .error _ => none⟩

/-- `main()` after authentication: collect photos; `sys.exit(0)` if none;
then — *before* any name resolution — the `--dry-run` branch prints the would-be
photo id list and exits 0; otherwise the target id is `--photoset-id` if given,
else resolved from `--photoset-name` if given (not-found prints an error and
exits 1); finally update or create. -/
def main_cli (env : FlickrEnv) (cfg : CliConfig) : MainTrace :=
  match fetch_interesting_photos env.search cfg.count with
  | .error _ => ⟨none, false, [], [], none⟩
  | .ok photo_ids =>
    if photo_ids.isEmpty then ⟨some photo_ids, false, [], [], some 0⟩
    else if cfg.dry_run then ⟨some photo_ids, false, [], photo_ids, some 0⟩
    else
      match cfg.photoset_id with
      | some tid => main_write env cfg photo_ids (some tid) false
      | none =>
        match cfg.photoset_name with
        | none => main_write env cfg photo_ids none false
        | some nm =>
          match resolve_photoset_name env.getList nm env.list_fuel with
          | none => ⟨some photo_ids, true, [], [], none⟩
          | some (.error _) => ⟨some photo_ids, true, [], [], none⟩
          | some (.ok none) => ⟨some photo_ids, true, [], [], some 1⟩
          | some (.ok (some tid)) => main_write env cfg photo_ids (some tid) true

/-! ## Progress stream state (src/web_app.py: log_buffer, log_queue,
emit_log, run, stream) -/

/-- The module-level stream state of the web app: the durable in-memory
replay buffer `log_buffer` and the shared asyncio `log_queue` (modelled as the
FIFO list of messages currently sitting in the queue, front first). -/
structure StreamState where
  buffer : List String
  queue : List String
deriving Repr, DecidableEq

/-- `emit_log(loop, message)`: append the message to `log_buffer` *and* put it
on `log_queue`. -/
def emit_log (s : StreamState) (message : String) : StreamState :=
  ⟨s.buffer ++ [message], s.queue ++ [message]⟩

/-- Emitting a sequence of lines, first to last, with no consumer draining the
queue in between. -/
def emit_all : StreamState → List String → StreamState
  | s, [] => s
  | s, m :: ms => emit_all (emit_log s m) ms

/-- The `while not log_queue.empty(): log_queue.get_nowait()` drain in the
`/run` handler. -/
def drain_queue : List String → List String
  | [] => []
  | _ :: rest => drain_queue rest

/-- The stream-state reset performed by the `/run` handler before the worker
starts: `log_buffer.clear()` followed by the queue drain. -/
def start_job (s : StreamState) : StreamState :=
  ⟨[], drain_queue s.queue⟩

/-- The two reserved terminal markers checked by the stream generator:
`message.startswith("__DONE__") or message.startswith("__ERROR__")`
(string prefix test expressed over the character data, which is what
`str.startswith` computes). -/
def terminal_marker (m : String) : Bool :=
  "__DONE__".data.isPrefixOf m.data || "__ERROR__".data.isPrefixOf m.data

/-- The live phase of the `/stream` event generator: repeatedly take from the
shared queue, deliver the message, and stop after a terminal marker.  Applied
to the queue contents at attach time when the worker emits nothing further;
an empty queue means the generator blocks (keepalives only). -/
def live_deliver : List String → List String
  | [] => []
  | m :: rest => if terminal_marker m then [m] else m :: live_deliver rest

/-- Everything a consumer attaching at state `s` receives (no concurrent
emission): the replay loop walks `log_buffer` by index and yields every
buffered line, then the live loop consumes the shared queue. -/
def stream_deliver (s : StreamState) : List String :=
  s.buffer ++ live_deliver s.queue

/-! ## Web worker (src/web_app.py: worker_thread, resolve_photoset_name,
add_photos_individually) -/

/-- The `/run` request body (`RunRequest`): an empty `photoset_name` means
"create a new set". -/
structure RunReq where
  title : String
  description : String
  count : Nat
  photoset_name : String
  dry_run : Bool
deriving Repr, DecidableEq

/-- The remote API and ambient data as seen by one worker run; fields as in
`FlickrEnv`. -/
structure WebEnv where
  nsid : String
  search : Nat → Nat → Except String SearchPage
  getList : Nat → Nat → Except String PhotosetPage
  create : Nat → Except String String
  editMeta : Nat → Except String Unit
  editPhotos : Nat → Except String Unit
  addPhoto : String → String → Nat → Except String Unit
  timestamp : String

/-- Outcome of the web `add_photos_individually` fallback (it keeps counters
and emits a line per failure immediately instead of a final report). -/
structure WebAddOutcome where
  added : Nat
  failed : Nat
  calls : List String
  logs : List String
deriving Repr, DecidableEq

/-- Body of the web fallback loop: one retry-wrapped `addPhoto` per id; on an
exhausted-retry error, emit `  Failed to add {pid}: {ex}` and continue; a
progress line every 50 items and on the last item. -/
def web_add_loop (addPhotoA : String → Nat → Except String Unit) (total : Nat) :
    List String → Nat → Nat → Nat → WebAddOutcome
  | [], _, added, failed => ⟨added, failed, [], []⟩
  | pid :: rest, i, added, failed =>
    match (api_call_with_retry (addPhotoA pid) 3).result with
    | .ok _ =>
      let progress :=
        if i % 50 == 0 || i == total then
          [s!"  Progress: {i}/{total} (added: {added + 1}, failed: {failed})"]
        else []
      let out := web_add_loop addPhotoA total rest (i + 1) (added + 1) failed
      ⟨out.added, out.failed, pid :: out.calls, progress ++ out.logs⟩
    | .error e =>
      let progress :=
        if i % 50 == 0 || i == total then
          [s!"  Progress: {i}/{total} (added: {added}, failed: {failed + 1})"]
        else []
      let out := web_add_loop addPhotoA total rest (i + 1) added (failed + 1)
      ⟨out.added, out.failed, pid :: out.calls,
        s!"  Failed to add {pid}: {e}" :: (progress ++ out.logs)⟩

/-- The web `add_photos_individually(flickr, photoset_id, photo_ids, loop)`:
loop over `photo_ids[1:]`. -/
def web_add_photos_individually (addPhotoA : String → String → Nat → Except String Unit)
    (photoset_id : String) (photo_ids : List String) : WebAddOutcome :=
  let remaining := photo_ids.drop 1
  web_add_loop (addPhotoA photoset_id) remaining.length remaining 1 0 0

/-- The inlined collection loop of `worker_thread` (identical control flow to
`fetch_go`, but its per-page progress lines go through `emit_log`); returns
the emitted lines and the accumulated ids (or the propagated exception). -/
def worker_fetch_go (searchA : Nat → Nat → Except String SearchPage)
    (total_pages : Nat) : Nat → List String → Nat → List String × Except String (List String)
  | _, acc, 0 => ([], .ok acc)
  | page, acc, rem + 1 =>
    let lg := s!"Fetching page {page}/{total_pages}..."
    match (api_call_with_retry (searchA page) 3).result with
    | .error e => ([lg], .error e)
    | .ok none => ([lg], .error "TypeError")
    | .ok (some resp) =>
      if resp.photo = [] then ([lg], .ok acc)
      else if resp.pages ≤ page then ([lg], .ok (acc ++ resp.photo))
      else
        let pr := worker_fetch_go searchA total_pages (page + 1) (acc ++ resp.photo) rem
        (lg :: pr.1, pr.2)

/-- Observable trace of one `worker_thread` run: every line passed to
`emit_log` in order (ending with a terminal marker except in the fuel
artifact branch), the write calls issued, whether the worker's
`resolve_photoset_name` was called, the collected id list (`none` if
collection raised), and the photo ids printed by the dry-run branch. -/
structure WorkerTrace where
  logs : List String
  writes : List WriteCall
  resolution_invoked : Bool
  collected : Option (List String)
  dry_printed : List String
deriving Repr, DecidableEq

/-- The worker's final success lines: the photoset URL (with `@` escaped in
the owner id) and the `__DONE__` marker. -/
def worker_finish (nsid photoset_id : String) (lb : List String)
    (ws : List WriteCall) (resolved : Bool) (photo_ids : List String) : WorkerTrace :=
  let owner := nsid.replace "@" "%40"
  let url := s!"https://www.flickr.com/photos/{owner}/sets/{photoset_id}"
  ⟨lb ++ [s!"\nDone! View your photoset at:\n  {url}", "__DONE__"], ws, resolved,
    some photo_ids, []⟩

/-- The worker's update branch: emit the header lines, issue `editMeta` with
the timestamp-augmented description (an exhausted-retry error is caught by the
outer handler: error line + `__ERROR__`), then the bulk `editPhotos` /
incremental fallback.  An empty `photo_ids` (unreachable: the worker returns
earlier) would raise `IndexError` inside the bulk `try` and fall back over an
empty remainder. -/
def worker_update (env : WebEnv) (req : RunReq) (photo_ids : List String)
    (lb : List String) (photoset_id : String) (resolved : Bool) : WorkerTrace :=
  let lb1 := lb ++
    [s!"Updating photoset '{req.photoset_name}' with {photo_ids.length} photos..."]
  let update_desc := s!"{req.description}\n\nLast updated: {env.timestamp}"
  let lb2 := lb1 ++ ["Updating photoset title and description..."]
  let w0 := [WriteCall.editMeta photoset_id req.title update_desc]
  match (api_call_with_retry env.editMeta 3).result with
  | .error e => ⟨lb2 ++ [s!"\nError: {e}", "__ERROR__"], w0, resolved, some photo_ids, []⟩
  | .ok _ =>
    let lb3 := lb2 ++ ["Replacing photos via editPhotos..."]
    match photo_ids with
    | [] =>
      let ao := web_add_photos_individually env.addPhoto photoset_id []
      worker_finish env.nsid photoset_id
        (lb3 ++ ["editPhotos failed (list index out of range), falling back to addPhoto loop..."]
          ++ ao.logs)
        (w0 ++ ao.calls.map (WriteCall.addPhoto photoset_id)) resolved photo_ids
    | p0 :: _ =>
      let w1 := w0 ++
        [WriteCall.editPhotos photoset_id p0 (String.intercalate "," photo_ids)]
      match (api_call_with_retry env.editPhotos 3).result with
      | .ok _ =>
        worker_finish env.nsid photoset_id
          (lb3 ++ ["All photos replaced successfully via editPhotos."]) w1 resolved photo_ids
      | .error e =>
        let ao := web_add_photos_individually env.addPhoto photoset_id photo_ids
        worker_finish env.nsid photoset_id
          (lb3 ++ [s!"editPhotos failed ({e}), falling back to addPhoto loop..."] ++ ao.logs)
          (w1 ++ ao.calls.map (WriteCall.addPhoto photoset_id)) resolved photo_ids

/-- The worker's create branch: create the set with `primary_photo_id =
photo_ids[0]` (an exhausted-retry error reaches the outer handler), then the
bulk `editPhotos` / incremental fallback. -/
def worker_create (env : WebEnv) (req : RunReq) (photo_ids : List String)
    (lb : List String) (resolved : Bool) : WorkerTrace :=
  let lb1 := lb ++ [s!"Creating photoset '{req.title}' with {photo_ids.length} photos..."]
  match photo_ids with
  | [] =>
    ⟨lb1 ++ ["\nError: list index out of range", "__ERROR__"], [], resolved,
      some photo_ids, []⟩
  | p0 :: _ =>
    let wCreate := [WriteCall.create req.title req.description p0]
    match (api_call_with_retry env.create 3).result with
    | .error e =>
      ⟨lb1 ++ [s!"\nError: {e}", "__ERROR__"], wCreate, resolved, some photo_ids, []⟩
    | .ok none =>
      ⟨lb1 ++ ["\nError: TypeError", "__ERROR__"], wCreate, resolved, some photo_ids, []⟩
    | .ok (some psid) =>
      let lb2 := lb1 ++ [s!"Photoset created with ID: {psid}",
        "Attempting bulk add via editPhotos..."]
      let w1 := wCreate ++
        [WriteCall.editPhotos psid p0 (String.intercalate "," photo_ids)]
      match (api_call_with_retry env.editPhotos 3).result with
      | .ok _ =>
        worker_finish env.nsid psid
          (lb2 ++ ["All photos added successfully via editPhotos."]) w1 resolved photo_ids
      | .error e =>
        let ao := web_add_photos_individually env.addPhoto psid photo_ids
        worker_finish env.nsid psid
          (lb2 ++ [s!"editPhotos failed ({e}), falling back to addPhoto loop..."] ++ ao.logs)
          (w1 ++ ao.calls.map (WriteCall.addPhoto psid)) resolved photo_ids

/-- `worker_thread` from the point where the target photoset id (if any) is
known: the dry-run branch emits the `[DRY RUN]` header, the first 20 photo
ids, a `... and N more` line when longer, and `__DONE__` — issuing no write
call; otherwise update or create. -/
def worker_after_resolve (env : WebEnv) (req : RunReq) (photo_ids : List String)
    (lb : List String) (photoset_id : Option String) (resolved : Bool) : WorkerTrace :=
  if req.dry_run then
    let action := match photoset_id with | some _ => "update" | none => "create"
    let n := photo_ids.length
    let dl := [s!"\n[DRY RUN] Would {action} photoset '{req.title}' with {n} photos.",
        "First 20 photo IDs:"]
      ++ (photo_ids.take 20).map (fun pid => s!"  {pid}")
      ++ (if 20 < n then [s!"  ... and {n - 20} more"] else [])
    ⟨lb ++ dl ++ ["__DONE__"], [], resolved, some photo_ids, photo_ids.take 20⟩
  else
    match photoset_id with
    | some pid => worker_update env req photo_ids lb pid resolved
    | none => worker_create env req photo_ids lb resolved

/-- `worker_thread(req, loop)`: emit the start lines, run the inlined
collection loop, stop with `__DONE__` on an empty collection; resolve
`req.photoset_name` (when non-empty) through the web
`resolve_photoset_name` — not-found emits an error line plus `__ERROR__` with
no write — and only *then* check `req.dry_run`.  `fuel` bounds the resolver
pagination as in `resolve_photoset_name`; its exhaustion (the `none` branch)
is a modelling artifact. -/
def worker_thread (env : WebEnv) (req : RunReq) (fuel : Nat) : WorkerTrace :=
  let mode := if req.dry_run then "dry run" else "operation"
  let l0 := [s!"Starting {mode}...", s!"Authenticated as user: {env.nsid}"]
  let total_pages := (req.count + 500 - 1) / 500
  match worker_fetch_go env.search total_pages 1 [] total_pages with
  | (flogs, .error e) =>
    ⟨l0 ++ flogs ++ [s!"\nError: {e}", "__ERROR__"], [], false, none, []⟩
  | (flogs, .ok ids0) =>
    let photo_ids := ids0.take req.count
    let lb := l0 ++ flogs ++ [s!"Found {photo_ids.length} interesting photos."]
    if photo_ids.isEmpty then
      ⟨lb ++ ["No photos found. Nothing to do.", "__DONE__"], [], false,
        some photo_ids, []⟩
    else if req.photoset_name = "" then
      worker_after_resolve env req photo_ids lb none false
    else
      let lb2 := lb ++ [s!"Looking up photoset '{req.photoset_name}'..."]
      match resolve_photoset_name env.getList req.photoset_name fuel with
      | none => ⟨lb2 ++ ["__ERROR__"], [], true, some photo_ids, []⟩
      | some (.error e) =>
        ⟨lb2 ++ [s!"\nError: {e}", "__ERROR__"], [], true, some photo_ids, []⟩
      | some (.ok none) =>
        ⟨lb2 ++ [s!"Error: No photoset found with name '{req.photoset_name}'.",
          "__ERROR__"], [], true, some photo_ids, []⟩
      | some (.ok (some pid)) =>
        worker_after_resolve env req photo_ids
          (lb2 ++ [s!"Found photoset ID: {pid}"]) (some pid) true

/-! ## Helper lemmas -/

/-- With a positive budget, a call whose first attempt succeeds is invoked
once, with no wait and no retry line. -/
theorem retry_reliable (f : Nat → α) (page : Nat) :
    api_call_with_retry (reliable f page) 3 = ⟨.ok (some (f page)), [0], [], []⟩ := rfl

/-- One unfolding step of `fetch_go` under an always-succeeding search. -/
theorem fetch_go_reliable_step (search : Nat → SearchPage) (page : Nat)
    (acc : List String) (rem : Nat) :
    fetch_go (reliable search) page acc (rem + 1) =
      if (search page).photo = [] then .ok acc
      else if (search page).pages ≤ page then .ok (acc ++ (search page).photo)
      else fetch_go (reliable search) (page + 1) (acc ++ (search page).photo) rem := rfl

/-- Under an always-succeeding search, the collection loop returns the
accumulator extended by the concatenation of some number of consecutive
pages starting at the current one. -/
theorem fetch_go_reliable (search : Nat → SearchPage) (rem : Nat) :
    ∀ (page : Nat) (acc : List String),
      ∃ k, fetch_go (reliable search) page acc rem
        = .ok (acc ++ pages_concat search page k) := by
  induction rem with
  | zero =>
    intro page acc
    exact ⟨0, by simp [fetch_go, pages_concat]⟩
  | succ n ih =>
    intro page acc
    rw [fetch_go_reliable_step]
    by_cases h1 : (search page).photo = []
    · exact ⟨0, by simp [h1, pages_concat]⟩
    · by_cases h2 : (search page).pages ≤ page
      · exact ⟨1, by simp [h1, h2, pages_concat]⟩
      · obtain ⟨k, hk⟩ := ih (page + 1) (acc ++ (search page).photo)
        exact ⟨k + 1, by simp [h1, h2, hk, pages_concat]⟩

/-! ## Claim theorems -/

/-- C3: under the retry wrapper with the default budget of 3 attempts, an
operation that fails twice then succeeds incurs exactly two backoff waits
(1 second then 2 seconds, `2 ^ attempt` with `attempt` starting at 0) and the
third attempt's result is returned; an operation that fails on all 3 attempts
has its third failure raised to the caller with no further wait, and a retry
line is emitted before each retry but not before the final propagated
failure. -/
theorem claim_C3 (α : Type) (a : α) (v : Except String α) (e0 e1 e2 : String) :
    api_call_with_retry (scripted_op [e0, e1] (Except.ok a)) 3
      = ⟨.ok (some a), [0, 1, 2], [1, 2], [retry_line e0 1, retry_line e1 2]⟩ ∧
    api_call_with_retry (scripted_op [e0, e1, e2] v) 3
      = ⟨.error e2, [0, 1, 2], [1, 2], [retry_line e0 1, retry_line e1 2]⟩ :=
  ⟨rfl, rfl⟩

/-- C10: the retry wrapper called with a budget overridden to
`max_retries ≤ 0` returns `None` without invoking the operation even once,
without sleeping, without printing, and without raising. -/
theorem claim_C10 (α : Type) (f : Nat → Except String α) (m : Int) (h : m ≤ 0) :
    api_call_with_retry f m = ⟨.ok none, [], [], []⟩ := by
  unfold api_call_with_retry
  rw [Int.toNat_of_nonpos h]
  rfl

/-- Witness for C10 at the budgets 0 and -1 and an always-raising operation. -/
theorem claim_C10_witness :
    api_call_with_retry (fun _ => (Except.error "boom" : Except String Unit)) 0
      = ⟨.ok none, [], [], []⟩ ∧
    api_call_with_retry (fun _ => (Except.error "boom" : Except String Unit)) (-1)
      = ⟨.ok none, [], [], []⟩ :=
  ⟨claim_C10 Unit _ 0 (by decide), claim_C10 Unit _ (-1) (by decide)⟩

/-- C5: for every target count `N ≥ 1` and every sequence of (successful)
page responses, the photo collector returns a list of length at most `N`
that is the order-preserving concatenation of consecutive pages starting at
page 1, truncated to `N`; and against an honest paginated server over the
account's photo list, the result is empty only if the account has zero
photos. -/
theorem claim_C5 (search : Nat → SearchPage) (all : List String) (N : Nat)
    (hN : 1 ≤ N) :
    (∃ l k, fetch_interesting_photos (reliable search) N = .ok l ∧
      l = (pages_concat search 1 k).take N ∧ l.length ≤ N) ∧
    (all ≠ [] →
      ∃ l, fetch_interesting_photos (reliable (search_server all)) N = .ok l ∧
        l ≠ []) := by
  constructor
  · obtain ⟨k, hk⟩ := fetch_go_reliable search ((N + 500 - 1) / 500) 1 []
    simp only [List.nil_append] at hk
    refine ⟨(pages_concat search 1 k).take N, k, ?_, rfl, ?_⟩
    · unfold fetch_interesting_photos
      rw [hk]
      rfl
    · simp [List.length_take]
  · intro hall
    have ht : ∃ t, (N + 500 - 1) / 500 = t + 1 :=
      ⟨(N + 500 - 1) / 500 - 1, by omega⟩
    obtain ⟨t, ht⟩ := ht
    have hphoto : (search_server all 1).photo = all.take 500 := by
      simp [search_server]
    have hne : all.take 500 ≠ [] := by
      intro hcon
      rcases List.take_eq_nil_iff.mp hcon with h | h
      · omega
      · exact hall h
    have hstep := fetch_go_reliable_step (search_server all) 1 [] t
    have hne' : ¬((search_server all 1).photo = []) := by rw [hphoto]; exact hne
    by_cases h2 : (search_server all 1).pages ≤ 1
    · refine ⟨((search_server all 1).photo).take N, ?_, ?_⟩
      · unfold fetch_interesting_photos
        rw [ht, hstep, if_neg hne', if_pos h2]
        rfl
      · rw [hphoto]
        intro hcon
        rcases List.take_eq_nil_iff.mp hcon with h | h
        · omega
        · exact hne h
    · obtain ⟨k, hk⟩ :=
        fetch_go_reliable (search_server all) t 2 ([] ++ (search_server all 1).photo)
      have hne' : ¬((search_server all 1).photo = []) := by rw [hphoto]; exact hne
      simp only [List.nil_append] at hk
      refine ⟨((search_server all 1).photo ++ pages_concat (search_server all) 2 k).take N,
        ?_, ?_⟩
      · unfold fetch_interesting_photos
        rw [ht, hstep, if_neg hne', if_neg h2]
        simp only [List.nil_append, show (1 : Nat) + 1 = 2 from rfl]
        rw [hk]
        rfl
      · have hcat : (search_server all 1).photo ++ pages_concat (search_server all) 2 k ≠ [] := by
          rw [hphoto]
          exact List.append_ne_nil_of_left_ne_nil hne _
        intro hcon
        rcases List.take_eq_nil_iff.mp hcon with h | h
        · omega
        · exact hcat h

/-- Witness for C5: two photos on one page, target count 2; account list
`["u"]` for the emptiness direction. -/
theorem claim_C5_witness :
    (∃ l k, fetch_interesting_photos
        (reliable fun p => if p = 1 then ⟨["x", "y"], 1⟩ else ⟨[], 1⟩) 2 = .ok l ∧
      l = (pages_concat (fun p => if p = 1 then ⟨["x", "y"], 1⟩ else ⟨[], 1⟩) 1 k).take 2 ∧
      l.length ≤ 2) ∧
    ((["u"] : List String) ≠ [] →
      ∃ l, fetch_interesting_photos (reliable (search_server ["u"])) 2 = .ok l ∧
        l ≠ []) :=
  claim_C5 (fun p => if p = 1 then ⟨["x", "y"], 1⟩ else ⟨[], 1⟩) ["u"] 2 (by decide)

/-- `find_in_page` is the first match (in order) of an exact title
comparison. -/
theorem find_in_page_eq_find? (l : List PhotosetEntry) (name : String) :
    find_in_page l name = (l.find? fun ps => ps.title == name).map PhotosetEntry.id := by
  induction l with
  | nil => rfl
  | cons ps rest ih =>
    by_cases h : ps.title = name
    · simp [find_in_page, List.find?_cons, h]
    · simp [find_in_page, List.find?_cons, h, ih]

/-- Unfolding equation of `find_in_page` on a non-empty listing. -/
theorem find_in_page_cons (ps : PhotosetEntry) (rest : List PhotosetEntry)
    (name : String) :
    find_in_page (ps :: rest) name
      = if ps.title = name then some ps.id else find_in_page rest name := rfl

/-- A hit in the first part of a listing is a hit in the whole listing. -/
theorem find_in_page_append_left (a b : List PhotosetEntry) (name id : String)
    (h : find_in_page a name = some id) :
    find_in_page (a ++ b) name = some id := by
  induction a with
  | nil => exact absurd h (by simp [find_in_page])
  | cons ps rest ih =>
    rw [find_in_page_cons] at h
    rw [List.cons_append, find_in_page_cons]
    by_cases hps : ps.title = name
    · rw [if_pos hps] at h
      rw [if_pos hps]
      exact h
    · rw [if_neg hps] at h
      rw [if_neg hps]
      exact ih h

/-- A miss in the first part of a listing defers to the rest. -/
theorem find_in_page_append_none (a b : List PhotosetEntry) (name : String)
    (h : find_in_page a name = none) :
    find_in_page (a ++ b) name = find_in_page b name := by
  induction a with
  | nil => rfl
  | cons ps rest ih =>
    rw [find_in_page_cons] at h
    rw [List.cons_append, find_in_page_cons]
    by_cases hps : ps.title = name
    · rw [if_pos hps] at h
      exact absurd h (by simp)
    · rw [if_neg hps] at h
      rw [if_neg hps]
      exact ih h

/-- One unfolding step of `resolve_loop` under an always-succeeding
listing. -/
theorem resolve_loop_reliable_step (g : Nat → PhotosetPage) (name : String)
    (page fuel : Nat) :
    resolve_loop (reliable g) name page (fuel + 1) =
      match find_in_page (g page).photoset name with
      | some id => some (.ok (some id))
      | none =>
        if (g page).pages ≤ page then some (.ok none)
        else resolve_loop (reliable g) name (page + 1) fuel := rfl

/-- Against an honest paginated listing, the resolver starting at page
`p ≥ 1` with enough fuel finds exactly the first exact-title match among the
albums from position `(p-1)*500` on. -/
theorem resolve_loop_server (albums : List PhotosetEntry) (name : String) :
    ∀ (fuel p : Nat), 1 ≤ p → 1 ≤ fuel →
      (albums.length + 499) / 500 + 1 ≤ p + fuel →
      resolve_loop (reliable (getList_server albums)) name p fuel
        = some (.ok (find_in_page (albums.drop ((p - 1) * 500)) name)) := by
  intro fuel
  induction fuel with
  | zero => intro p _ h2 _; omega
  | succ f ih =>
    intro p hp _ hbound
    rw [resolve_loop_reliable_step]
    have hchunk : (getList_server albums p).photoset
        = (albums.drop ((p - 1) * 500)).take 500 := rfl
    have hpages : (getList_server albums p).pages = (albums.length + 499) / 500 := rfl
    cases hfind : find_in_page ((getList_server albums p).photoset) name with
    | some id =>
      have hwhole : find_in_page (albums.drop ((p - 1) * 500)) name = some id := by
        conv_lhs => rw [← List.take_append_drop 500 (albums.drop ((p - 1) * 500))]
        exact find_in_page_append_left _ _ _ _ (by rw [← hchunk]; exact hfind)
      rw [hwhole]
    | none =>
      have hnone : find_in_page ((albums.drop ((p - 1) * 500)).take 500) name = none := by
        rw [← hchunk]; exact hfind
      by_cases hle : (getList_server albums p).pages ≤ p
      · rw [if_pos hle]
        rw [hpages] at hle
        have hlen : (albums.drop ((p - 1) * 500)).length ≤ 500 := by
          rw [List.length_drop]
          omega
        have htake : (albums.drop ((p - 1) * 500)).take 500 = albums.drop ((p - 1) * 500) :=
          List.take_of_length_le hlen
        rw [htake] at hnone
        rw [hnone]
      · rw [if_neg hle]
        rw [hpages] at hle
        have ihe := ih (p + 1) (by omega) (by omega) (by omega)
        rw [ihe]
        have hdrop : albums.drop ((p + 1 - 1) * 500)
            = (albums.drop ((p - 1) * 500)).drop 500 := by
          rw [List.drop_drop]
          congr 1
          omega
        have hrest : find_in_page (albums.drop ((p - 1) * 500)) name
            = find_in_page ((albums.drop ((p - 1) * 500)).drop 500) name := by
          conv_lhs => rw [← List.take_append_drop 500 (albums.drop ((p - 1) * 500))]
          exact find_in_page_append_none _ _ _ hnone
        rw [hdrop, hrest]

/-- Against an honest listing with sufficient fuel, the resolver returns the
first exact-title match over the whole album list (or the not-found
outcome). -/
theorem resolve_server_spec (albums : List PhotosetEntry) (name : String) :
    resolve_photoset_name (reliable (getList_server albums)) name (fuel_for albums)
      = some (.ok ((albums.find? fun ps => ps.title == name).map PhotosetEntry.id)) := by
  unfold resolve_photoset_name fuel_for
  rw [resolve_loop_server albums name ((albums.length + 499) / 500 + 1) 1
    (by omega) (by omega) (by omega)]
  rw [show (1 - 1) * 500 = 0 from rfl, List.drop_zero, find_in_page_eq_find?]

/-- C6: for every album listing and query name, the resolver returns the id
of the first album (in listing order, across pages) whose title equals the
query by exact case-sensitive string equality, and yields the fatal
not-found outcome when no title matches exactly; on the not-found outcome the
CLI `main` issues no write call. -/
theorem claim_C6 (albums : List PhotosetEntry) (name : String) :
    resolve_photoset_name (reliable (getList_server albums)) name (fuel_for albums)
      = some (.ok ((albums.find? fun ps => ps.title == name).map PhotosetEntry.id)) ∧
    ∀ (env : FlickrEnv) (cfg : CliConfig),
      env.getList = reliable (getList_server albums) →
      env.list_fuel = fuel_for albums →
      cfg.photoset_id = none →
      cfg.photoset_name = some name →
      (albums.find? fun ps => ps.title == name) = none →
      (main_cli env cfg).writes = [] := by
  constructor
  · exact resolve_server_spec albums name
  · intro env cfg hgl hfuel hid hname hfind
    have hres : resolve_photoset_name env.getList name env.list_fuel
        = some (.ok none) := by
      rw [hgl, hfuel, resolve_server_spec, hfind]
      rfl
    unfold main_cli
    cases hfetch : fetch_interesting_photos env.search cfg.count with
    | error e => rfl
    | ok photo_ids =>
      by_cases hemp : photo_ids.isEmpty
      · simp [hemp]
      · by_cases hdry : cfg.dry_run
        · simp [hemp, hdry]
        · simp [hemp, hdry, hid, hname, hres]

/-- Witness for C6: a one-album listing queried with a missing name; the
resolver reports not-found and the CLI run issues no write. -/
theorem claim_C6_witness :
    resolve_photoset_name (reliable (getList_server [⟨"A", "7"⟩])) "Z"
      (fuel_for [⟨"A", "7"⟩]) = some (.ok none) ∧
    (main_cli
      ⟨"user", reliable (fun _ => ⟨["p"], 1⟩), reliable (getList_server [⟨"A", "7"⟩]),
        fuel_for [⟨"A", "7"⟩], fun _ => .ok "9", fun _ => .ok (), fun _ => .ok (),
        fun _ _ _ => .ok (), "TS"⟩
      ⟨"T", "D", 1, none, some "Z", false⟩).writes = [] := by
  have h := claim_C6 [⟨"A", "7"⟩] "Z"
  constructor
  · rw [h.1]
    rfl
  · exact h.2 _ _ rfl rfl rfl rfl rfl

/-- The per-photo outcome of one retry-wrapped `addPhoto` call: `some (pid,
e)` when the call exhausts its retries with final error `e`, `none` on
success. -/
def retry_failure (addPhotoA : String → Nat → Except String Unit) (pid : String) :
    Option (String × String) :=
  match (api_call_with_retry (addPhotoA pid) 3).result with
  | .error e => some (pid, e)
  | .ok _ => none

/-- Loop invariant of the CLI fallback loop: every remaining id gets exactly
one wrapped call (in input order), the final counters add up to the starting
counters plus the number of items, and the failure list is exactly the
in-order record of the failing ids with their errors. -/
theorem add_loop_spec (addPhotoA : String → Nat → Except String Unit) (total : Nat) :
    ∀ (items : List String) (i added failed : Nat),
      (add_loop addPhotoA total items i added failed).calls = items ∧
      (add_loop addPhotoA total items i added failed).added
          + (add_loop addPhotoA total items i added failed).failed
        = added + failed + items.length ∧
      (add_loop addPhotoA total items i added failed).failures
        = items.filterMap (retry_failure addPhotoA) := by
  intro items
  induction items with
  | nil =>
    intro i added failed
    exact ⟨rfl, by simp [add_loop], rfl⟩
  | cons pid rest ih =>
    intro i added failed
    cases hr : (api_call_with_retry (addPhotoA pid) 3).result with
    | ok u =>
      obtain ⟨h1, h2, h3⟩ := ih (i + 1) (added + 1) failed
      have hf : retry_failure addPhotoA pid = none := by
        unfold retry_failure
        rw [hr]
      refine ⟨?_, ?_, ?_⟩
      · simp only [add_loop, hr]
        rw [h1]
      · simp only [add_loop, hr, List.length_cons]
        omega
      · simp only [add_loop, hr]
        rw [h3, List.filterMap_cons_none hf]
    | error e =>
      obtain ⟨h1, h2, h3⟩ := ih (i + 1) added (failed + 1)
      have hf : retry_failure addPhotoA pid = some (pid, e) := by
        unfold retry_failure
        rw [hr]
      refine ⟨?_, ?_, ?_⟩
      · simp only [add_loop, hr]
        rw [h1]
      · simp only [add_loop, hr, List.length_cons]
        omega
      · simp only [add_loop, hr]
        rw [h3, List.filterMap_cons_some hf]

/-- Specification of the CLI incremental fallback: it submits exactly
`photo_ids[1:]` (in order), its counters add up to that list's length, its
failure list records exactly the failing ids in order, and its output is the
loop's progress lines followed by the final report. -/
theorem add_photos_individually_spec (addPhotoA : String → String → Nat → Except String Unit)
    (photoset_id : String) (photo_ids : List String) :
    (add_photos_individually addPhotoA photoset_id photo_ids).calls = photo_ids.drop 1 ∧
    (add_photos_individually addPhotoA photoset_id photo_ids).added
        + (add_photos_individually addPhotoA photoset_id photo_ids).failed
      = (photo_ids.drop 1).length ∧
    (add_photos_individually addPhotoA photoset_id photo_ids).failures
      = (photo_ids.drop 1).filterMap (retry_failure (addPhotoA photoset_id)) ∧
    ∃ pl, (add_photos_individually addPhotoA photoset_id photo_ids).logs
      = pl ++ add_report (add_photos_individually addPhotoA photoset_id photo_ids).failed
          (add_photos_individually addPhotoA photoset_id photo_ids).failures := by
  obtain ⟨h1, h2, h3⟩ :=
    add_loop_spec (addPhotoA photoset_id) (photo_ids.drop 1).length (photo_ids.drop 1) 1 0 0
  unfold add_photos_individually
  refine ⟨h1, by simpa using h2, h3,
    ⟨(add_loop (addPhotoA photoset_id) (photo_ids.drop 1).length (photo_ids.drop 1) 1 0 0).logs,
      rfl⟩⟩

/-- C4: on the create path with a non-empty photo list, the first identifier
is the primary photo of the create call and the incremental fallback (when it
runs) submits exactly the remaining identifiers — so the first identifier is
never also submitted there (for duplicate-free lists it does not occur among
the fallback's calls at all) — and the fallback's added and failed counters
sum to the list's length minus one. -/
theorem claim_C4 (createA : Nat → Except String String)
    (editPhotosA : Nat → Except String Unit)
    (addPhotoA : String → String → Nat → Except String Unit)
    (title description p0 : String) (rest : List String) :
    (create_photoset createA editPhotosA addPhotoA title description
      (p0 :: rest)).writes.head? = some (.create title description p0) ∧
    ∀ ao, (create_photoset createA editPhotosA addPhotoA title description
        (p0 :: rest)).fallback = some ao →
      ao.calls = rest ∧
      ao.added + ao.failed = (p0 :: rest).length - 1 ∧
      (p0 ∉ rest → p0 ∉ ao.calls) := by
  constructor
  · cases hc : (api_call_with_retry createA 3).result with
    | error e => simp [create_photoset, hc]
    | ok v =>
      cases v with
      | none => simp [create_photoset, hc]
      | some psid =>
        cases hb : (api_call_with_retry editPhotosA 3).result with
        | ok u => simp [create_photoset, hc, hb]
        | error e => simp [create_photoset, hc, hb]
  · intro ao h
    cases hc : (api_call_with_retry createA 3).result with
    | error e => simp [create_photoset, hc] at h
    | ok v =>
      cases v with
      | none => simp [create_photoset, hc] at h
      | some psid =>
        cases hb : (api_call_with_retry editPhotosA 3).result with
        | ok u => simp [create_photoset, hc, hb] at h
        | error e =>
          simp only [create_photoset, hc, hb, Option.some.injEq] at h
          obtain ⟨h1, h2, h3, _⟩ := add_photos_individually_spec addPhotoA psid (p0 :: rest)
          rw [← h]
          have hdrop : (p0 :: rest).drop 1 = rest := rfl
          rw [hdrop] at h1 h2
          refine ⟨h1, by simp only [List.length_cons]; omega,
            fun hno => by rw [h1]; exact hno⟩

/-- Witness for C4: two-element list, bulk call fails, both fallback adds
succeed. -/
theorem claim_C4_witness :
    (create_photoset (fun _ => .ok "55") (fun _ => .error "bulk down")
      (fun _ _ _ => .ok ()) "T" "D" ("a" :: ["b"])).writes.head?
      = some (.create "T" "D" "a") ∧
    ((create_photoset (fun _ => .ok "55") (fun _ => .error "bulk down")
      (fun _ _ _ => .ok ()) "T" "D" ("a" :: ["b"])).fallback
        = some (add_photos_individually (fun _ _ _ => .ok ()) "55" ["a", "b"]) →
      (add_photos_individually (fun _ _ _ => .ok ()) "55" ["a", "b"]).calls = ["b"] ∧
      (add_photos_individually (fun _ _ _ => .ok ()) "55" ["a", "b"]).added
          + (add_photos_individually (fun _ _ _ => .ok ()) "55" ["a", "b"]).failed
        = ("a" :: ["b"]).length - 1 ∧
      (("a" : String) ∉ (["b"] : List String) →
        ("a" : String) ∉ (add_photos_individually (fun _ _ _ => .ok ()) "55" ["a", "b"]).calls)) :=
  ⟨(claim_C4 (fun _ => .ok "55") (fun _ => .error "bulk down") (fun _ _ _ => .ok ())
      "T" "D" "a" ["b"]).1,
    (claim_C4 (fun _ => .ok "55") (fun _ => .error "bulk down") (fun _ _ _ => .ok ())
      "T" "D" "a" ["b"]).2 _⟩

/-- C7: in the incremental fallback, a failure on one identifier does not
abort the batch — every remaining identifier is submitted, and each failing
identifier is recorded with its error message in input order — and after the
loop either a success line is emitted (exactly when there are zero failures)
or an itemized failure report listing each failed identifier with its
error. -/
theorem claim_C7 (addPhotoA : String → String → Nat → Except String Unit)
    (photoset_id : String) (photo_ids : List String) :
    (add_photos_individually addPhotoA photoset_id photo_ids).calls
      = photo_ids.drop 1 ∧
    (add_photos_individually addPhotoA photoset_id photo_ids).failures
      = (photo_ids.drop 1).filterMap (retry_failure (addPhotoA photoset_id)) ∧
    ((add_photos_individually addPhotoA photoset_id photo_ids).failures = [] →
      ∃ pl, (add_photos_individually addPhotoA photoset_id photo_ids).logs
        = pl ++ ["All photos added successfully via addPhoto loop."]) ∧
    ((add_photos_individually addPhotoA photoset_id photo_ids).failures ≠ [] →
      ∃ pl, (add_photos_individually addPhotoA photoset_id photo_ids).logs
        = pl ++ (s!"\nFailed to add {(add_photos_individually addPhotoA photoset_id photo_ids).failed} photo(s):"
            :: (add_photos_individually addPhotoA photoset_id photo_ids).failures.map fail_line)) := by
  obtain ⟨h1, h2, h3, pl, hl⟩ :=
    add_photos_individually_spec addPhotoA photoset_id photo_ids
  refine ⟨h1, h3, ?_, ?_⟩
  · intro hz
    refine ⟨pl, ?_⟩
    rw [hl, hz]
    rfl
  · intro hnz
    refine ⟨pl, ?_⟩
    rw [hl]
    unfold add_report
    rw [if_neg]
    intro hcon
    exact hnz (List.isEmpty_iff.mp hcon)

/-- Witness for C7: one succeeding and one persistently failing id after the
primary; the failure is recorded and the itemized report follows the loop. -/
theorem claim_C7_witness :
    (add_photos_individually
      (fun _ pid _ => if pid = "bad" then (.error "rate limited" : Except String Unit)
        else .ok ()) "77" ["p1", "good", "bad"]).calls
      = (["p1", "good", "bad"] : List String).drop 1 ∧
    (add_photos_individually
      (fun _ pid _ => if pid = "bad" then (.error "rate limited" : Except String Unit)
        else .ok ()) "77" ["p1", "good", "bad"]).failures
      = ((["p1", "good", "bad"] : List String).drop 1).filterMap
          (retry_failure ((fun _ pid _ => if pid = "bad" then (.error "rate limited" : Except String Unit)
            else .ok ()) "77")) ∧
    ∃ pl, (add_photos_individually
      (fun _ pid _ => if pid = "bad" then (.error "rate limited" : Except String Unit)
        else .ok ()) "77" ["p1", "good", "bad"]).logs
      = pl ++ ("\nFailed to add 1 photo(s):"
          :: List.map fail_line [("bad", "rate limited")]) := by
  have h := claim_C7
    (fun _ pid _ => if pid = "bad" then (.error "rate limited" : Except String Unit)
      else .ok ()) "77" ["p1", "good", "bad"]
  refine ⟨h.1, h.2.1, ?_⟩
  obtain ⟨pl, hpl⟩ := h.2.2.2 (by decide)
  refine ⟨pl, ?_⟩
  rw [hpl]
  rfl

/-- C8: on every update of an existing album, the metadata-edit call is
issued unconditionally as the first write, carrying the caller-supplied title
and the caller-supplied description with the generated
`Last updated: <timestamp>` line appended. -/
theorem claim_C8 (editMetaA : Nat → Except String Unit)
    (editPhotosA : Nat → Except String Unit)
    (addPhotoA : String → String → Nat → Except String Unit)
    (timestamp photoset_id title description : String) (photo_ids : List String) :
    (update_photoset editMetaA editPhotosA addPhotoA timestamp photoset_id title
      description photo_ids).writes.head?
      = some (.editMeta photoset_id title
          s!"{description}\n\nLast updated: {timestamp}") := by
  cases hm : (api_call_with_retry editMetaA 3).result with
  | error e => simp [update_photoset, hm]
  | ok u =>
    cases photo_ids with
    | nil => simp [update_photoset, hm]
    | cons p0 rest =>
      cases hb : (api_call_with_retry editPhotosA 3).result with
      | ok v => simp [update_photoset, hm, hb]
      | error e => simp [update_photoset, hm, hb]

/-- The `/run` drain loop leaves the queue empty. -/
theorem drain_queue_nil : ∀ q : List String, drain_queue q = [] := by
  intro q
  induction q with
  | nil => rfl
  | cons m rest ih => exact ih

/-- Emitting lines appends them to both the buffer and the queue. -/
theorem emit_all_spec : ∀ (lines : List String) (b q : List String),
    emit_all ⟨b, q⟩ lines = ⟨b ++ lines, q ++ lines⟩ := by
  intro lines
  induction lines with
  | nil => intro b q; simp [emit_all]
  | cons m ms ih =>
    intro b q
    rw [show emit_all ⟨b, q⟩ (m :: ms) = emit_all ⟨b ++ [m], q ++ [m]⟩ ms from rfl, ih]
    simp

/-- The live phase only ever delivers messages that are in the queue. -/
theorem live_deliver_subset : ∀ q : List String, live_deliver q ⊆ q := by
  intro q
  induction q with
  | nil => simp [live_deliver]
  | cons m rest ih =>
    rw [show live_deliver (m :: rest)
      = if terminal_marker m then [m] else m :: live_deliver rest from rfl]
    by_cases hm : terminal_marker m
    · rw [if_pos hm]
      intro x hx
      simp at hx
      simp [hx]
    · rw [if_neg hm]
      intro x hx
      rcases List.mem_cons.mp hx with hx | hx
      · simp [hx]
      · exact List.mem_cons_of_mem m (ih hx)

/-- C9: starting a new job clears the replay buffer and drains every message
still pending in the log queue, so after the worker emits the new job's
lines the buffer holds exactly those lines and a consumer attaching during
the new job receives only lines emitted by it — never a line of an earlier
job. -/
theorem claim_C9 (prior : StreamState) (job_lines : List String) :
    start_job prior = ⟨[], []⟩ ∧
    (emit_all (start_job prior) job_lines).buffer = job_lines ∧
    stream_deliver (emit_all (start_job prior) job_lines) ⊆ job_lines := by
  have hstart : start_job prior = ⟨[], []⟩ := by
    unfold start_job
    rw [drain_queue_nil]
  have hemit : emit_all (start_job prior) job_lines = ⟨job_lines, job_lines⟩ := by
    rw [hstart, emit_all_spec]
    simp
  refine ⟨hstart, by rw [hemit], ?_⟩
  rw [hemit]
  unfold stream_deliver
  simp only []
  exact List.append_subset.mpr ⟨fun x hx => hx, live_deliver_subset job_lines⟩

/-- C2 fails on the code: `emit_log` feeds every line to both the replay
buffer and the single shared queue, so a consumer attaching after the job
emitted `"alpha"` and `"__DONE__"` (with no consumer draining the queue
meanwhile) receives both lines from the replay phase and then the *same* two
lines again from the queue in the live phase — each of the K = 2 already
emitted lines is delivered twice, not once. -/
theorem claim_C2_duplication :
    stream_deliver (emit_all (start_job ⟨["stale"], ["stale"]⟩) ["alpha", "__DONE__"])
      = ["alpha", "__DONE__", "alpha", "__DONE__"] ∧
    (stream_deliver (emit_all (start_job ⟨["stale"], ["stale"]⟩)
      ["alpha", "__DONE__"])).count "alpha" = 2 :=
  ⟨rfl, rfl⟩

/-- C1 fails on the code as stated: in the CLI `main`, the dry-run branch
exits *before* any album-name resolution.  Concretely: a dry run with
`--photoset-name A` against an account with one photo and an album listing
containing `A` collects the photos and prints them, but never calls the
resolver (`resolution_invoked = false`), while the claim asserts every
dry run performs album-name resolution. -/
theorem claim_C1_counterexample :
    (⟨"T", "D", 1, none, some "A", true⟩ : CliConfig).dry_run = true ∧
    (⟨"T", "D", 1, none, some "A", true⟩ : CliConfig).photoset_name = some "A" ∧
    (main_cli
      ⟨"user", reliable (fun _ => ⟨["p1"], 1⟩), reliable (getList_server [⟨"A", "77"⟩]),
        fuel_for [⟨"A", "77"⟩], fun _ => .ok "9", fun _ => .ok (), fun _ => .ok (),
        fun _ _ _ => .ok (), "TS"⟩
      ⟨"T", "D", 1, none, some "A", true⟩).collected = some ["p1"] ∧
    (main_cli
      ⟨"user", reliable (fun _ => ⟨["p1"], 1⟩), reliable (getList_server [⟨"A", "77"⟩]),
        fuel_for [⟨"A", "77"⟩], fun _ => .ok "9", fun _ => .ok (), fun _ => .ok (),
        fun _ _ _ => .ok (), "TS"⟩
      ⟨"T", "D", 1, none, some "A", true⟩).dry_printed = ["p1"] ∧
    (main_cli
      ⟨"user", reliable (fun _ => ⟨["p1"], 1⟩), reliable (getList_server [⟨"A", "77"⟩]),
        fuel_for [⟨"A", "77"⟩], fun _ => .ok "9", fun _ => .ok (), fun _ => .ok (),
        fun _ _ _ => .ok (), "TS"⟩
      ⟨"T", "D", 1, none, some "A", true⟩).resolution_invoked = false ∧
    (main_cli
      ⟨"user", reliable (fun _ => ⟨["p1"], 1⟩), reliable (getList_server [⟨"A", "77"⟩]),
        fuel_for [⟨"A", "77"⟩], fun _ => .ok "9", fun _ => .ok (), fun _ => .ok (),
        fun _ _ _ => .ok (), "TS"⟩
      ⟨"T", "D", 1, none, some "A", true⟩).writes = [] :=
  ⟨rfl, rfl, rfl, rfl, rfl, rfl⟩

/-- C1 (amended): on every dry run, photo collection runs and all write
calls are skipped (no create, metadata-edit, bulk membership, or add-photo
call).  The CLI exits the dry-run branch *before* any album-name resolution
and prints the full would-be photo id list; the web front-end performs
album-name resolution (for a non-empty name) before its dry-run exit and
prints the first 20 would-be photo ids. -/
theorem claim_C1_amended :
    (∀ (env : FlickrEnv) (cfg : CliConfig), cfg.dry_run = true →
      (main_cli env cfg).writes = [] ∧
      (main_cli env cfg).resolution_invoked = false ∧
      (∀ ids, (main_cli env cfg).collected = some ids → ids.isEmpty = false →
        (main_cli env cfg).dry_printed = ids)) ∧
    (∀ (env : WebEnv) (req : RunReq) (fuel : Nat), req.dry_run = true →
      (worker_thread env req fuel).writes = [] ∧
      (∀ ids, (worker_thread env req fuel).collected = some ids →
        ids.isEmpty = false →
        (¬req.photoset_name = "" →
          (worker_thread env req fuel).resolution_invoked = true) ∧
        (req.photoset_name = "" →
          (worker_thread env req fuel).dry_printed = ids.take 20))) := by
  constructor
  · intro env cfg hdry
    unfold main_cli
    cases hfetch : fetch_interesting_photos env.search cfg.count with
    | error e =>
      exact ⟨rfl, rfl, fun ids hids _ => absurd hids (by simp)⟩
    | ok photo_ids =>
      simp only []
      cases hemp : photo_ids.isEmpty with
      | true =>
        rw [if_pos rfl]
        refine ⟨rfl, rfl, fun ids hids hne => ?_⟩
        simp only [Option.some.injEq] at hids
        rw [← hids, hemp] at hne
        exact absurd hne (by simp)
      | false =>
        rw [if_neg (by simp), if_pos hdry]
        refine ⟨rfl, rfl, fun ids hids _ => ?_⟩
        simp only [Option.some.injEq] at hids
        rw [hids]
  · intro env req fuel hdry
    simp only [worker_thread]
    cases hfr : worker_fetch_go env.search ((req.count + 500 - 1) / 500) 1 []
        ((req.count + 500 - 1) / 500) with
    | mk flogs res =>
      cases res with
      | error e =>
        exact ⟨rfl, fun ids hids _ => absurd hids (by simp)⟩
      | ok ids0 =>
        simp only []
        cases hemp : (ids0.take req.count).isEmpty with
        | true =>
          rw [if_pos rfl]
          refine ⟨rfl, fun ids hids hne => ?_⟩
          simp only [Option.some.injEq] at hids
          rw [← hids, hemp] at hne
          exact absurd hne (by simp)
        | false =>
          rw [if_neg (by simp)]
          by_cases hname : req.photoset_name = ""
          · rw [if_pos hname]
            unfold worker_after_resolve
            rw [if_pos hdry]
            refine ⟨rfl, fun ids hids _ => ?_⟩
            simp only [Option.some.injEq] at hids
            exact ⟨fun hcon => absurd hname hcon, fun _ => by rw [hids]⟩
          · rw [if_neg hname]
            cases hres : resolve_photoset_name env.getList req.photoset_name fuel with
            | none =>
              exact ⟨rfl, fun ids hids _ =>
                ⟨fun _ => rfl, fun hcon => absurd hcon hname⟩⟩
            | some r =>
              cases r with
              | error e =>
                exact ⟨rfl, fun ids hids _ =>
                  ⟨fun _ => rfl, fun hcon => absurd hcon hname⟩⟩
              | ok o =>
                cases o with
                | none =>
                  exact ⟨rfl, fun ids hids _ =>
                    ⟨fun _ => rfl, fun hcon => absurd hcon hname⟩⟩
                | some pid =>
                  simp only [worker_after_resolve]
                  rw [if_pos hdry]
                  exact ⟨rfl, fun ids hids _ =>
                    ⟨fun _ => rfl, fun hcon => absurd hcon hname⟩⟩

/-- Witness for the amended C1: a concrete dry run on each front-end; the CLI
skips resolution, the web worker performs it, neither issues a write. -/
theorem claim_C1_amended_witness :
    (main_cli
      ⟨"user", reliable (fun _ => ⟨["p1"], 1⟩), reliable (getList_server [⟨"A", "77"⟩]),
        fuel_for [⟨"A", "77"⟩], fun _ => .ok "9", fun _ => .ok (), fun _ => .ok (),
        fun _ _ _ => .ok (), "TS"⟩
      ⟨"T", "D", 1, none, some "A", true⟩).writes = [] ∧
    (main_cli
      ⟨"user", reliable (fun _ => ⟨["p1"], 1⟩), reliable (getList_server [⟨"A", "77"⟩]),
        fuel_for [⟨"A", "77"⟩], fun _ => .ok "9", fun _ => .ok (), fun _ => .ok (),
        fun _ _ _ => .ok (), "TS"⟩
      ⟨"T", "D", 1, none, some "A", true⟩).resolution_invoked = false ∧
    (worker_thread
      ⟨"user", reliable (fun _ => ⟨["p1"], 1⟩), reliable (getList_server [⟨"A", "77"⟩]),
        fun _ => .ok "9", fun _ => .ok (), fun _ => .ok (), fun _ _ _ => .ok (), "TS"⟩
      ⟨"T", "D", 1, "A", true⟩ 5).writes = [] ∧
    (worker_thread
      ⟨"user", reliable (fun _ => ⟨["p1"], 1⟩), reliable (getList_server [⟨"A", "77"⟩]),
        fun _ => .ok "9", fun _ => .ok (), fun _ => .ok (), fun _ _ _ => .ok (), "TS"⟩
      ⟨"T", "D", 1, "A", true⟩ 5).resolution_invoked = true := by
  obtain ⟨hcli, hweb⟩ := claim_C1_amended
  have h1 := hcli
    ⟨"user", reliable (fun _ => ⟨["p1"], 1⟩), reliable (getList_server [⟨"A", "77"⟩]),
      fuel_for [⟨"A", "77"⟩], fun _ => .ok "9", fun _ => .ok (), fun _ => .ok (),
      fun _ _ _ => .ok (), "TS"⟩
    ⟨"T", "D", 1, none, some "A", true⟩ rfl
  have h2 := hweb
    ⟨"user", reliable (fun _ => ⟨["p1"], 1⟩), reliable (getList_server [⟨"A", "77"⟩]),
      fun _ => .ok "9", fun _ => .ok (), fun _ => .ok (), fun _ _ _ => .ok (), "TS"⟩
    ⟨"T", "D", 1, "A", true⟩ 5 rfl
  exact ⟨h1.1, h1.2.1, h2.1, (h2.2 ["p1"] rfl rfl).1 (by decide)⟩

/-- Witness for C9: a concrete stale state and two new-job lines. -/
theorem claim_C9_witness :
    start_job ⟨["old"], ["old"]⟩ = ⟨[], []⟩ ∧
    (emit_all (start_job ⟨["old"], ["old"]⟩) ["a", "__DONE__"]).buffer
      = ["a", "__DONE__"] ∧
    stream_deliver (emit_all (start_job ⟨["old"], ["old"]⟩) ["a", "__DONE__"])
      ⊆ ["a", "__DONE__"] :=
  claim_C9 ⟨["old"], ["old"]⟩ ["a", "__DONE__"]
